import Mathlib

/-!
Verification of the unified Z-modulation G-code post-processor
(source file: src/unified_z_modulation.py).

The Python source is shallowly embedded: Python floats are modelled as real
numbers (parsed coordinate literals as exact rationals, cast into the reals
where arithmetic happens), G-code lines as Lean strings, and fallible code
(Python exceptions: KeyError, ValueError from float()) as Option-valued
functions where a crash is modelled by none.  The driver loop of
process_gcode is embedded as a structural recursion over the list of input
lines, threading the mutable instance state (current_layer, total_z_shift,
current feature, layer buffer) explicitly.
-/

namespace UZM

/-- Print feature classification, mirroring class PrintFeature (source lines
14-17). -/
inductive PrintFeature where
  | INFILL
  | INTERNAL_PERIMETER
  | EXTERNAL_PERIMETER
deriving DecidableEq, Repr

/-- Tunable parameters set in SynergisticProcessor.__init__ (source lines
21-29).  They are instance attributes in the source; the embedding passes
them explicitly to every function that reads them. -/
structure Config where
  infill_amplitude : ℝ
  wavelength : ℝ
  transition_length : ℝ
  bricklayer_shift : ℝ
  layer_group_size : ℕ

/-- Default values assigned by __init__ (source lines 23-29). -/
noncomputable def defaultConfig : Config :=
  { infill_amplitude := 0.15
    wavelength := 4
    transition_length := 0.2
    bricklayer_shift := 0.1
    layer_group_size := 2 }

/-- Character class of the regex fragment [\d\.]: an ASCII digit or a dot. -/
def isDigitDot (c : Char) : Bool := c.isDigit || c == '.'

/-- Whether a character list starts with a digit-or-dot character. -/
def headDD : List Char → Bool
  | [] => false
  | c :: _ => isDigitDot c

/-- All matches of the regex ([XYZ])([\d\.]+) in a character list, scanned
left to right and non-overlapping, as (axis letter, numeric token) pairs.
This mirrors re.finditer in _parse_coords (source line 135): the numeric
token is the maximal run of digits/dots after the axis letter.  Scanning one
character at a time is faithful to the non-overlapping regex scan because a
matched numeric token consists of digits/dots only, and no match can start
at a digit/dot, so re-examining the token characters can produce no extra
match. -/
def axisMatches : List Char → List (Char × List Char)
  | [] => []
  | c :: rest =>
    if (c == 'X' || c == 'Y' || c == 'Z') && headDD rest then
      (c, rest.takeWhile isDigitDot) :: axisMatches rest
    else
      axisMatches rest

/-- Numeric value of a list of ASCII digits (most significant first). -/
def natOfDigits (l : List Char) : ℕ :=
  l.foldl (fun a c => 10 * a + (c.toNat - '0'.toNat)) 0

/-- Python float(s) applied to a token matched by [\d\.]+ (only digits and
dots can occur).  It succeeds exactly when the token has at most one dot and
at least one digit, returning the exact decimal value; otherwise float()
raises ValueError, modelled by none. -/
def pyFloat (s : List Char) : Option ℚ :=
  if s.count '.' ≤ 1 && s.any Char.isDigit then
    let ip := s.takeWhile (fun c => c != '.')
    let fp := (s.dropWhile (fun c => c != '.')).drop 1
    some (mkRat (natOfDigits ip * 10 ^ fp.length + natOfDigits fp) (10 ^ fp.length))
  else
    none

/-- Coordinate dictionary built by _parse_coords: a partial map from the axis
letters X, Y, Z to parsed values (the regex admits no other letters). -/
structure Coords where
  x? : Option ℚ
  y? : Option ℚ
  z? : Option ℚ
deriving DecidableEq, Repr

/-- Dictionary insertion coords[axis] = v (later occurrences overwrite
earlier ones, mirroring the dict assignment in the finditer loop). -/
def Coords.insert (co : Coords) (a : Char) (v : ℚ) : Coords :=
  if a == 'X' then { co with x? := some v }
  else if a == 'Y' then { co with y? := some v }
  else { co with z? := some v }

/-- Python truthiness of the coords dict: empty iff no axis was matched. -/
def Coords.isEmpty (co : Coords) : Bool :=
  co.x?.isNone && co.y?.isNone && co.z?.isNone

/-- The empty coordinate dictionary. -/
def Coords.empty : Coords := { x? := none, y? := none, z? := none }

/-- Fold of the finditer loop body of _parse_coords over the match list;
a float() failure anywhere aborts (Python propagates the ValueError). -/
def coordsOf : Coords → List (Char × List Char) → Option Coords
  | co, [] => some co
  | co, (a, num) :: rest =>
    match pyFloat num with
    | none => none
    | some v => coordsOf (co.insert a v) rest

/-- Embedding of SynergisticProcessor._parse_coords (source lines 132-137). -/
def parse_coords (line : String) : Option Coords :=
  coordsOf Coords.empty (axisMatches line.data)

/-- Decimal string of a non-negative number of thousandths, rendered as
intpart.3-digit-fraction; helper for the %.3f format. -/
def renderFixed3Nat (n : ℕ) : String :=
  toString (n / 1000) ++ "." ++
    (if n % 1000 < 10 then "00" else if n % 1000 < 100 then "0" else "") ++
    toString (n % 1000)

/-- Decimal string of a signed number of thousandths. -/
def renderFixed3 (m : ℤ) : String :=
  if m < 0 then "-" ++ renderFixed3Nat m.natAbs else renderFixed3Nat m.toNat

/-- Model of the Python format expression f"{x:.3f}" (source lines 142 and
144): the value rounded to a whole number of thousandths and rendered with
exactly 3 digits after the decimal point.  (Python rounds the underlying
binary float half-to-even; the claims never exercise a tie, so the rounding
mode is immaterial and the standard round is used.) -/
noncomputable def formatFixed3 (x : ℝ) : String :=
  renderFixed3 (round (x * 1000))

/-- One scanning step of re.sub(r"Z[\d\.]+", repl, line): every
non-overlapping match (a Z immediately followed by at least one digit/dot,
extending maximally over digits/dots) is replaced by repl, and scanning
resumes after the matched token.  The Boolean state records whether the scan
is currently inside a just-matched numeric token (whose characters are
consumed without being copied); since a digit/dot can never start a match,
this one-character-at-a-time scan is the regex substitution. -/
def subZAux (repl : List Char) : Bool → List Char → List Char
  | _, [] => []
  | inTok, c :: rest =>
    if inTok && isDigitDot c then subZAux repl true rest
    else if c == 'Z' && headDD rest then repl ++ subZAux repl true rest
    else c :: subZAux repl false rest

/-- Full substitution re.sub(r"Z[\d\.]+", repl, line) (source line 142). -/
def subZ (repl : List Char) (l : List Char) : List Char :=
  subZAux repl false l

/-- Whether the regex Z[\d\.]+ matches anywhere in the character list. -/
def hasZTok : List Char → Bool
  | [] => false
  | c :: rest => (c == 'Z' && headDD rest) || hasZTok rest

/-- Python str.rstrip() whitespace set. -/
def pySpace (c : Char) : Bool :=
  c == ' ' || c == '\t' || c == '\n' || c == '\r' || c == '\x0b' || c == '\x0c'

/-- Python str.rstrip(): remove trailing whitespace characters. -/
def rstrip (l : List Char) : List Char :=
  (l.reverse.dropWhile pySpace).reverse

/-- Embedding of SynergisticProcessor._update_z_value (source lines 139-145):
if the character Z occurs anywhere in the line, apply the regex substitution
re.sub(r"Z[\d\.]+", f"Z{new_z:.3f}", line); otherwise rstrip the line and
append a space, the formatted Z token and a newline. -/
noncomputable def update_z_value (line : String) (new_z : ℝ) : String :=
  if line.data.contains 'Z' then
    String.mk (subZ ('Z' :: (formatFixed3 new_z).data) line.data)
  else
    String.mk (rstrip line.data ++ (' ' :: 'Z' :: (formatFixed3 new_z).data) ++ ['\n'])

/-- Prefix test: pat is an initial segment of the second list. -/
def leadsWith : List Char → List Char → Bool
  | [], _ => true
  | _ :: _, [] => false
  | p :: ps, c :: cs => p == c && leadsWith ps cs

/-- Substring test (Python operator in on strings): pat occurs contiguously
somewhere in the list. -/
def containsSeq (pat : List Char) : List Char → Bool
  | [] => leadsWith pat []
  | c :: rest => leadsWith pat (c :: rest) || containsSeq pat rest

/-- Embedding of SynergisticProcessor._detect_feature (source lines 122-130). -/
def detect_feature (line : String) (current : PrintFeature) : PrintFeature :=
  if containsSeq ";TYPE:Internal infill".data line.data then PrintFeature.INFILL
  else if containsSeq ";TYPE:Internal perimeter".data line.data then
    PrintFeature.INTERNAL_PERIMETER
  else if containsSeq ";TYPE:External perimeter".data line.data then
    PrintFeature.EXTERNAL_PERIMETER
  else current

/-- Embedding of SynergisticProcessor._is_layer_change (source lines 147-149). -/
def is_layer_change (line : String) : Bool :=
  leadsWith ";LAYER:".data line.data || containsSeq ";CHANGE_LAYER".data line.data

/-- Python float modulo x % w for the wave computation (source line 102):
for a real divisor this is x - w * floor (x / w).  (Python raises on w = 0;
the wavelength is a positive length, and the claims never use w = 0.) -/
noncomputable def pymod (x w : ℝ) : ℝ := x - w * ⌊x / w⌋

/-- Projected position of the point on the wave axis (source line 101). -/
noncomputable def wave_position (x y phase : ℝ) : ℝ :=
  x * Real.cos phase + y * Real.sin phase

/-- Normalized wave phase in [0, 1) (source line 102). -/
noncomputable def wave_normalized (cfg : Config) (x y phase : ℝ) : ℝ :=
  pymod (wave_position x y phase) cfg.wavelength / cfg.wavelength

/-- Embedding of SynergisticProcessor._square_wave_z (source lines 99-114):
piecewise smoothed square wave.  Note that both sine ramps divide by
transition_length itself, not by transition_length / wavelength. -/
noncomputable def square_wave_z (cfg : Config) (x y phase : ℝ) : ℝ :=
  if wave_normalized cfg x y phase < cfg.transition_length / cfg.wavelength then
    cfg.infill_amplitude *
      Real.sin (wave_normalized cfg x y phase * Real.pi / cfg.transition_length)
  else if wave_normalized cfg x y phase > 1 - cfg.transition_length / cfg.wavelength then
    -cfg.infill_amplitude *
      Real.sin ((wave_normalized cfg x y phase - 1) * Real.pi / cfg.transition_length)
  else if wave_normalized cfg x y phase < 0.5 then cfg.infill_amplitude
  else -cfg.infill_amplitude

/-- Embedding of SynergisticProcessor._modify_infill (source lines 76-88).
The source reads coords["X"] and coords["Y"] with plain indexing: a missing
X or Y key raises KeyError (modelled by none), while Z is read defensively
with coords.get("Z", 0.0). -/
noncomputable def modify_infill (cfg : Config) (current_layer : ℕ) (brick_z_shift : ℝ)
    (line : String) : Option String :=
  match parse_coords line with
  | none => none
  | some coords =>
    if coords.isEmpty then some line
    else
      match coords.x? with
      | none => none
      | some x =>
        match coords.y? with
        | none => none
        | some y =>
          let phase : ℝ := (current_layer % 2 : ℕ) * Real.pi
          let wave_z := square_wave_z cfg (x : ℝ) (y : ℝ) phase
          let new_z : ℝ := ((coords.z?.getD 0 : ℚ) : ℝ) + wave_z + brick_z_shift
          some (update_z_value line new_z)

/-- Embedding of SynergisticProcessor._modify_internal_perimeter (source
lines 90-97). -/
noncomputable def modify_internal_perimeter (brick_z_shift : ℝ) (line : String) :
    Option String :=
  match parse_coords line with
  | none => none
  | some coords =>
    if coords.isEmpty || coords.z?.isNone then some line
    else some (update_z_value line (((coords.z?.getD 0 : ℚ) : ℝ) + brick_z_shift))

/-- Embedding of SynergisticProcessor._process_line (source lines 68-74). -/
noncomputable def process_line (cfg : Config) (current_layer : ℕ) (feature : PrintFeature)
    (brick_z_shift : ℝ) (line : String) : Option String :=
  match feature with
  | PrintFeature.INFILL => modify_infill cfg current_layer brick_z_shift line
  | PrintFeature.INTERNAL_PERIMETER => modify_internal_perimeter brick_z_shift line
  | PrintFeature.EXTERNAL_PERIMETER => some line

/-- Embedding of SynergisticProcessor._calculate_bricklayer_shift (source
lines 116-120), as a pure function of the current layer and the running
accumulator: the returned value is both the new accumulator and the shift
applied to the layer.  Modelling caveat: Lean's natural-number modulus is
total (n % 0 = n), whereas Python raises ZeroDivisionError when
layer_group_size is 0; this embedding is therefore faithful only on
configurations with layer_group_size at least 1, and every theorem that
quantifies over configurations carries that hypothesis. -/
noncomputable def calculate_bricklayer_shift (cfg : Config) (current_layer : ℕ)
    (total_z_shift : ℝ) : ℝ :=
  if current_layer % cfg.layer_group_size = 0 then total_z_shift + cfg.bricklayer_shift
  else total_z_shift

/-- Body of the write loop of _process_layer (source lines 64-66): transform
each buffered line with the given feature and brick shift; a raised
exception anywhere aborts the run. -/
noncomputable def processLayerLines (cfg : Config) (current_layer : ℕ)
    (feature : PrintFeature) (brick : ℝ) : List String → Option (List String)
  | [] => some []
  | l :: rest =>
    match process_line cfg current_layer feature brick l with
    | none => none
    | some out =>
      match processLayerLines cfg current_layer feature brick rest with
      | none => none
      | some outs => some (out :: outs)

/-- Embedding of SynergisticProcessor._process_layer (source lines 59-66):
first update the bricklayer accumulator, then transform every buffered line.
Returns the produced output lines (none on a crash) and the new accumulator. -/
noncomputable def process_layer (cfg : Config) (lines : List String)
    (feature : PrintFeature) (current_layer : ℕ) (total_z_shift : ℝ) :
    Option (List String) × ℝ :=
  let brick := calculate_bricklayer_shift cfg current_layer total_z_shift
  (processLayerLines cfg current_layer feature brick lines, brick)

/-- Mutable state of the process_gcode loop (source lines 31-33 and 40-41),
plus the output stream written so far. -/
structure DriverState where
  layer_lines : List String
  current_feature : PrintFeature
  current_layer : ℕ
  total_z_shift : ℝ
  output : List String

/-- Initial state at pass start: layer 0, zero accumulated shift, external
perimeter feature, empty buffer and output. -/
noncomputable def initState : DriverState :=
  { layer_lines := []
    current_feature := PrintFeature.EXTERNAL_PERIMETER
    current_layer := 0
    total_z_shift := 0
    output := [] }

/-- The for-loop of process_gcode (source lines 43-53): a layer-change
marker flushes the buffer, bumps the layer counter and is itself consumed;
any other line updates the sticky feature and is buffered. -/
noncomputable def runLines (cfg : Config) : DriverState → List String → Option DriverState
  | st, [] => some st
  | st, line :: rest =>
    if is_layer_change line then
      match process_layer cfg st.layer_lines st.current_feature st.current_layer
          st.total_z_shift with
      | (none, _) => none
      | (some outs, new_total) =>
        runLines cfg
          { layer_lines := []
            current_feature := st.current_feature
            current_layer := st.current_layer + 1
            total_z_shift := new_total
            output := st.output ++ outs } rest
    else
      runLines cfg
        { st with
          current_feature := detect_feature line st.current_feature
          layer_lines := st.layer_lines ++ [line] } rest

/-- Final-layer flush of process_gcode (source lines 55-57): performed only
when the buffer is non-empty. -/
noncomputable def finalize (cfg : Config) (st : DriverState) : Option (List String) :=
  if st.layer_lines.isEmpty then some st.output
  else
    match process_layer cfg st.layer_lines st.current_feature st.current_layer
        st.total_z_shift with
    | (none, _) => none
    | (some outs, _) => some (st.output ++ outs)

/-- Loop followed by the final flush, from an arbitrary driver state. -/
noncomputable def runFinal (cfg : Config) (st : DriverState) (input : List String) :
    Option (List String) :=
  match runLines cfg st input with
  | none => none
  | some st' => finalize cfg st'

/-- Embedding of SynergisticProcessor.process_gcode (source lines 37-57):
the list of output lines written for the given list of input lines, or none
when a Python exception aborts the run. -/
noncomputable def process_gcode (cfg : Config) (input : List String) :
    Option (List String) :=
  runFinal cfg initState input

/-! Reference decompositions of the driver, used to state and prove the
stream-level claims.  splitLayers cuts the input at the layer-change
markers; refLayers replays the per-layer flushes of the driver on the cut
stream. -/

/-- Cut an input stream at its layer-change markers: the completed layers
(the maximal marker-free runs, each terminated by a marker that is dropped)
and the trailing marker-free remainder. -/
def splitLayers : List String → List (List String) × List String
  | [] => ([], [])
  | l :: rest =>
    let p := splitLayers rest
    if is_layer_change l then ([] :: p.1, p.2)
    else
      match p.1 with
      | [] => ([], l :: p.2)
      | L :: ls => ((l :: L) :: ls, p.2)

/-- Prepend an already-buffered prefix to the first layer of a cut stream. -/
def attachBuf (buf : List String) : List (List String) × List String →
    List (List String) × List String
  | ([], r) => ([], buf ++ r)
  | (L :: ls, r) => ((buf ++ L) :: ls, r)

/-- The layers actually flushed: every completed layer, plus the trailing
remainder when it is non-empty (matching the final flush of process_gcode). -/
def layersArg (p : List (List String) × List String) : List (List String) :=
  p.1 ++ (if p.2.isEmpty then [] else [p.2])

/-- Sticky feature classification folded over a run of buffered lines. -/
def foldFeature (f : PrintFeature) (L : List String) : PrintFeature :=
  L.foldl (fun fe line => detect_feature line fe) f

/-- Layer-by-layer replay of the flush logic: each layer is transformed in
full with the single feature that is current when the layer is flushed (the
sticky feature after every line of the layer has been read), the layer index
and the updated bricklayer accumulator. -/
noncomputable def refLayers (cfg : Config) :
    PrintFeature → ℕ → ℝ → List (List String) → Option (List String)
  | _, _, _, [] => some []
  | f, k, a, L :: ls =>
    let f' := foldFeature f L
    let brick := calculate_bricklayer_shift cfg k a
    match processLayerLines cfg k f' brick L with
    | none => none
    | some outs =>
      match refLayers cfg f' (k + 1) brick ls with
      | none => none
      | some rest => some (outs ++ rest)

/-- Layered reference semantics of the whole pass: cut the stream at the
markers and replay the flushes. -/
noncomputable def layeredRef (cfg : Config) (input : List String) :
    Option (List String) :=
  refLayers cfg PrintFeature.EXTERNAL_PERIMETER 0 0 (layersArg (splitLayers input))

/-- Driver recursion with an explicit buffer, producing the remaining output
directly (bridge between runFinal and refLayers). -/
noncomputable def refFrom (cfg : Config) :
    List String → PrintFeature → ℕ → ℝ → List String → Option (List String)
  | buf, f, k, a, [] =>
    if buf.isEmpty then some []
    else processLayerLines cfg k f (calculate_bricklayer_shift cfg k a) buf
  | buf, f, k, a, line :: rest =>
    if is_layer_change line then
      match processLayerLines cfg k f (calculate_bricklayer_shift cfg k a) buf with
      | none => none
      | some outs =>
        match refFrom cfg [] f (k + 1) (calculate_bricklayer_shift cfg k a) rest with
        | none => none
        | some more => some (outs ++ more)
    else
      refFrom cfg (buf ++ [line]) (detect_feature line f) k a rest

/-- Modelled from the spec: the per-layer flush described by the claim,
in which every buffered line is transformed according to the feature
classified for that individual line (the feature active when the line was
read), rather than one feature for the whole layer.  The buffer keeps
(line, feature-at-read) pairs and the flush uses each line's own feature. -/
noncomputable def perLineFlush (cfg : Config) (current_layer : ℕ) (brick : ℝ) :
    List (String × PrintFeature) → Option (List String)
  | [] => some []
  | (l, fe) :: rest =>
    match process_line cfg current_layer fe brick l with
    | none => none
    | some out =>
      match perLineFlush cfg current_layer brick rest with
      | none => none
      | some outs => some (out :: outs)

/-- Modelled from the spec: stream driver whose flushes transform each line
with its own classified feature (see perLineFlush); identical to the source
driver in every other respect. -/
noncomputable def perLineRun (cfg : Config) :
    List (String × PrintFeature) → PrintFeature → ℕ → ℝ → List String →
    Option (List String)
  | buf, _, k, a, [] =>
    if buf.isEmpty then some []
    else perLineFlush cfg k (calculate_bricklayer_shift cfg k a) buf
  | buf, f, k, a, line :: rest =>
    if is_layer_change line then
      match perLineFlush cfg k (calculate_bricklayer_shift cfg k a) buf with
      | none => none
      | some outs =>
        match perLineRun cfg [] f (k + 1) (calculate_bricklayer_shift cfg k a) rest with
        | none => none
        | some more => some (outs ++ more)
    else
      perLineRun cfg (buf ++ [(line, detect_feature line f)])
        (detect_feature line f) k a rest

/-- Bricklayer accumulator after m successive layer flushes starting at
layer index k with accumulator a. -/
noncomputable def accumIter (cfg : Config) : ℕ → ℝ → ℕ → ℝ
  | _, a, 0 => a
  | k, a, m + 1 => accumIter cfg (k + 1) (calculate_bricklayer_shift cfg k a) m

/-- Number of layer indices in [k, k + m) that are multiples of g. -/
def hitCount (g k m : ℕ) : ℕ :=
  (List.range m).countP (fun i => (k + i) % g = 0)

/-- Modelled from the spec: the configuration-validity predicate of the
error-handling design (spec section 7); no validation code exists in the
source, whose __init__ only assigns the default values. -/
def ConfigValid (cfg : Config) : Prop :=
  cfg.transition_length < cfg.wavelength / 2 ∧
    0 ≤ cfg.infill_amplitude ∧ 0 ≤ cfg.wavelength ∧
    0 ≤ cfg.bricklayer_shift ∧ 1 ≤ cfg.layer_group_size

/-- An invalid configuration (transition_length well above wavelength / 2)
used to exhibit the absence of construction-time validation. -/
noncomputable def badConfig : Config :=
  { defaultConfig with transition_length := 3 }

/-- Modelled from the spec: first-match-only replacement, as the claim for
the line rewriter describes it (only the first Z token's value replaced). -/
def subZFirst (repl : List Char) : List Char → List Char
  | [] => []
  | c :: rest =>
    if c == 'Z' && headDD rest then
      repl ++ rest.dropWhile isDigitDot
    else
      c :: subZFirst repl rest

/-! Helper lemmas: evaluation of the format and of the wave phase at
concrete arguments, and the branch behaviour of the wave engine. -/

/-- Reduce the %.3f format at a value that is an exact number of
thousandths. -/
theorem formatFixed3_of (x : ℝ) (n : ℤ) (h : x * 1000 = (n : ℝ)) :
    formatFixed3 x = renderFixed3 n := by
  unfold formatFixed3
  rw [h, round_intCast]

/-- Evaluation of the normalized wave phase for the default wavelength at
phase 0 along the X axis. -/
theorem wave_normalized_default (x : ℝ) (h0 : 0 ≤ x) (h4 : x < 4) :
    wave_normalized defaultConfig x 0 0 = x / 4 := by
  unfold wave_normalized wave_position pymod
  rw [Real.cos_zero, Real.sin_zero]
  have hw : defaultConfig.wavelength = 4 := rfl
  rw [hw]
  have hx : x * 1 + 0 * 0 = x := by ring
  rw [hx]
  have hf : ⌊x / 4⌋ = 0 := by
    apply Int.floor_eq_zero_iff.mpr
    simp only [Set.mem_Ico]
    constructor
    · positivity
    · linarith
  rw [hf]
  push_cast
  ring

/-- First branch of _square_wave_z: rising smoothed transition. -/
theorem square_wave_region1 (cfg : Config) (x y phase : ℝ)
    (h : wave_normalized cfg x y phase < cfg.transition_length / cfg.wavelength) :
    square_wave_z cfg x y phase =
      cfg.infill_amplitude *
        Real.sin (wave_normalized cfg x y phase * Real.pi / cfg.transition_length) := by
  unfold square_wave_z
  rw [if_pos h]

/-- Second branch of _square_wave_z: falling smoothed transition. -/
theorem square_wave_region2 (cfg : Config) (x y phase : ℝ)
    (h1 : ¬ wave_normalized cfg x y phase < cfg.transition_length / cfg.wavelength)
    (h2 : wave_normalized cfg x y phase > 1 - cfg.transition_length / cfg.wavelength) :
    square_wave_z cfg x y phase =
      -cfg.infill_amplitude *
        Real.sin ((wave_normalized cfg x y phase - 1) * Real.pi / cfg.transition_length) := by
  unfold square_wave_z
  rw [if_neg h1, if_pos h2]

/-- C6: for all inputs X, Y and phase, the square-wave delta returned by
_square_wave_z lies in the closed interval [-amplitude, +amplitude],
provided the amplitude is non-negative. -/
theorem C6_square_wave_delta_bounded (cfg : Config) (x y phase : ℝ)
    (hA : 0 ≤ cfg.infill_amplitude) :
    -cfg.infill_amplitude ≤ square_wave_z cfg x y phase ∧
      square_wave_z cfg x y phase ≤ cfg.infill_amplitude := by
  have key : ∀ θ : ℝ, -cfg.infill_amplitude ≤ cfg.infill_amplitude * Real.sin θ ∧
      cfg.infill_amplitude * Real.sin θ ≤ cfg.infill_amplitude := by
    intro θ
    have h1 := Real.sin_le_one θ
    have h2 := Real.neg_one_le_sin θ
    constructor <;> nlinarith
  unfold square_wave_z
  split_ifs with h1 h2 h3
  · exact key _
  · rcases key ((wave_normalized cfg x y phase - 1) * Real.pi / cfg.transition_length)
      with ⟨ha, hb⟩
    constructor <;> linarith
  · exact ⟨neg_le_self hA, le_refl _⟩
  · exact ⟨le_refl _, neg_le_self hA⟩

/-- Witness for C6 at the default configuration and the point (1, 0),
phase 0. -/
theorem C6_square_wave_delta_bounded_witness :
    0 ≤ defaultConfig.infill_amplitude ∧
      (-defaultConfig.infill_amplitude ≤ square_wave_z defaultConfig 1 0 0 ∧
        square_wave_z defaultConfig 1 0 0 ≤ defaultConfig.infill_amplitude) :=
  ⟨by norm_num [defaultConfig],
    C6_square_wave_delta_bounded defaultConfig 1 0 0 (by norm_num [defaultConfig])⟩

/-- C5 (amended): in the rising region the delta is
amplitude * sin(normalized * pi / transition_length), and in the falling
region (when the rising test fails) it is
-amplitude * sin((normalized - 1) * pi / transition_length): the sine
arguments divide by the absolute transition_length, not by the fraction
transition_length / wavelength that the original claim states. -/
theorem C5_transition_formula (cfg : Config) (x y phase : ℝ) :
    (wave_normalized cfg x y phase < cfg.transition_length / cfg.wavelength →
      square_wave_z cfg x y phase =
        cfg.infill_amplitude *
          Real.sin (wave_normalized cfg x y phase * Real.pi / cfg.transition_length)) ∧
    (¬ wave_normalized cfg x y phase < cfg.transition_length / cfg.wavelength →
      wave_normalized cfg x y phase > 1 - cfg.transition_length / cfg.wavelength →
      square_wave_z cfg x y phase =
        -cfg.infill_amplitude *
          Real.sin ((wave_normalized cfg x y phase - 1) * Real.pi /
            cfg.transition_length)) :=
  ⟨square_wave_region1 cfg x y phase, square_wave_region2 cfg x y phase⟩

/-- Witness for C5: the rising region at (0.1, 0) and the falling region at
(3.9, 0), default configuration, phase 0. -/
theorem C5_transition_formula_witness :
    (wave_normalized defaultConfig 0.1 0 0 <
        defaultConfig.transition_length / defaultConfig.wavelength ∧
      square_wave_z defaultConfig 0.1 0 0 =
        defaultConfig.infill_amplitude *
          Real.sin (wave_normalized defaultConfig 0.1 0 0 * Real.pi /
            defaultConfig.transition_length)) ∧
    (wave_normalized defaultConfig 3.9 0 0 >
        1 - defaultConfig.transition_length / defaultConfig.wavelength ∧
      square_wave_z defaultConfig 3.9 0 0 =
        -defaultConfig.infill_amplitude *
          Real.sin ((wave_normalized defaultConfig 3.9 0 0 - 1) * Real.pi /
            defaultConfig.transition_length)) := by
  have hn1 : wave_normalized defaultConfig 0.1 0 0 = 0.1 / 4 :=
    wave_normalized_default 0.1 (by norm_num) (by norm_num)
  have hn2 : wave_normalized defaultConfig 3.9 0 0 = 3.9 / 4 :=
    wave_normalized_default 3.9 (by norm_num) (by norm_num)
  have h1 : wave_normalized defaultConfig 0.1 0 0 <
      defaultConfig.transition_length / defaultConfig.wavelength := by
    rw [hn1]
    norm_num [defaultConfig]
  have h2a : ¬ wave_normalized defaultConfig 3.9 0 0 <
      defaultConfig.transition_length / defaultConfig.wavelength := by
    rw [hn2]
    norm_num [defaultConfig]
  have h2b : wave_normalized defaultConfig 3.9 0 0 >
      1 - defaultConfig.transition_length / defaultConfig.wavelength := by
    rw [hn2]
    norm_num [defaultConfig]
  exact ⟨⟨h1, (C5_transition_formula defaultConfig 0.1 0 0).1 h1⟩,
    ⟨h2b, (C5_transition_formula defaultConfig 3.9 0 0).2 h2a h2b⟩⟩

/-- Counterexample for C5 as stated: at the default configuration, the
point (0.1, 0) with phase 0 lies in the rising region, but the computed
delta differs from amplitude * sin(normalized * pi /
(transition_length / wavelength)) claimed by the spec. -/
theorem C5_counterexample :
    square_wave_z defaultConfig 0.1 0 0 ≠
      defaultConfig.infill_amplitude *
        Real.sin (wave_normalized defaultConfig 0.1 0 0 * Real.pi /
          (defaultConfig.transition_length / defaultConfig.wavelength)) := by
  have hn : wave_normalized defaultConfig 0.1 0 0 = 0.1 / 4 :=
    wave_normalized_default 0.1 (by norm_num) (by norm_num)
  have hlt : wave_normalized defaultConfig 0.1 0 0 <
      defaultConfig.transition_length / defaultConfig.wavelength := by
    rw [hn]
    norm_num [defaultConfig]
  have hL : square_wave_z defaultConfig 0.1 0 0 = 0.15 * Real.sin (Real.pi / 8) := by
    rw [square_wave_region1 defaultConfig 0.1 0 0 hlt, hn]
    have hA : defaultConfig.infill_amplitude = 0.15 := rfl
    have ht : defaultConfig.transition_length = 0.2 := rfl
    rw [hA, ht]
    have harg : (0.1 / 4 : ℝ) * Real.pi / 0.2 = Real.pi / 8 := by ring
    rw [harg]
  have hR : defaultConfig.infill_amplitude *
      Real.sin (wave_normalized defaultConfig 0.1 0 0 * Real.pi /
        (defaultConfig.transition_length / defaultConfig.wavelength)) = 0.15 := by
    rw [hn]
    have hA : defaultConfig.infill_amplitude = 0.15 := rfl
    have ht : defaultConfig.transition_length = 0.2 := rfl
    have hw : defaultConfig.wavelength = 4 := rfl
    rw [hA, ht, hw]
    have harg : (0.1 / 4 : ℝ) * Real.pi / (0.2 / 4) = Real.pi / 2 := by ring
    rw [harg, Real.sin_pi_div_two, mul_one]
  rw [hL, hR]
  have h1 : Real.sin (Real.pi / 8) < Real.pi / 8 := Real.sin_lt (by positivity)
  have h2 : Real.pi < 3.15 := Real.pi_lt_d2
  intro heq
  nlinarith

/-! Helper lemmas about the substitution scanner. -/

/-- The scanner state is irrelevant at a non-digit/dot head character. -/
theorem subZAux_state (repl : List Char) (b : Bool) (c : Char) (rest : List Char)
    (hc : isDigitDot c = false) :
    subZAux repl b (c :: rest) = subZAux repl false (c :: rest) := by
  cases b
  · rfl
  · simp [subZAux, hc]

/-- In token state, a digit/dot run is consumed, and scanning continues in
plain state at the first non-digit/dot position. -/
theorem subZAux_skip (repl : List Char) (n rest : List Char)
    (hn : ∀ ch ∈ n, isDigitDot ch = true) (hrest : headDD rest = false) :
    subZAux repl true (n ++ rest) = subZAux repl false rest := by
  induction n with
  | nil =>
    simp only [List.nil_append]
    cases rest with
    | nil => rfl
    | cons r rs =>
      have hr : isDigitDot r = false := by simpa [headDD] using hrest
      exact subZAux_state repl true r rs hr
  | cons d ds ih =>
    have hd : isDigitDot d = true := hn d (by simp)
    simp only [List.cons_append, subZAux, hd, Bool.and_true, if_true]
    exact ih (fun ch hch => hn ch (by simp [hch]))

/-- A Z-free prefix is copied verbatim by the scanner. -/
theorem subZAux_noZ (repl : List Char) (a rest : List Char) (ha : 'Z' ∉ a) :
    subZAux repl false (a ++ rest) = a ++ subZAux repl false rest := by
  induction a with
  | nil => simp
  | cons c cs ih =>
    have hc : (c == 'Z') = false := by
      rw [beq_eq_false_iff_ne]
      intro h
      exact ha (h ▸ List.mem_cons_self c cs)
    have ih' := ih (fun h => ha (List.mem_cons_of_mem _ h))
    simp [subZAux, hc, ih']

/-- A match (Z followed by a non-empty digit/dot run, the following
character not digit/dot) is replaced by repl and scanning resumes after it. -/
theorem subZAux_tok (repl n rest : List Char) (hn : n ≠ [])
    (hdd : ∀ ch ∈ n, isDigitDot ch = true) (hrest : headDD rest = false) :
    subZAux repl false ('Z' :: (n ++ rest)) = repl ++ subZAux repl false rest := by
  have hh : headDD (n ++ rest) = true := by
    cases n with
    | nil => exact absurd rfl hn
    | cons d ds => simpa [headDD] using hdd d (by simp)
  simp only [subZAux, hh, Bool.and_true, Bool.false_and, Bool.and_self, if_true,
    if_false, beq_self_eq_true]
  rw [subZAux_skip repl n rest hdd hrest]
  simp

/-- Without any match the substitution is the identity. -/
theorem subZAux_id (repl : List Char) : ∀ l, hasZTok l = false → subZAux repl false l = l := by
  intro l
  induction l with
  | nil => intro _; rfl
  | cons c rest ih =>
    intro h
    have h1 : (c == 'Z' && headDD rest) = false ∧ hasZTok rest = false := by
      simpa [hasZTok, Bool.or_eq_false_iff] using h
    simp [subZAux, h1.1, ih h1.2, Bool.and_eq_false_iff]

/-- A list that misses the character Z has no Z token. -/
theorem hasZTok_eq_false (l : List Char) (h : 'Z' ∉ l) : hasZTok l = false := by
  induction l with
  | nil => rfl
  | cons c rest ih =>
    have hc : (c == 'Z') = false := by
      rw [beq_eq_false_iff_ne]
      intro he
      exact h (he ▸ List.mem_cons_self c rest)
    simp [hasZTok, hc, ih (fun hm => h (List.mem_cons_of_mem _ hm))]

/-- Membership gives a true contains test. -/
theorem contains_of_mem (l : List Char) (a : Char) (h : a ∈ l) : l.contains a = true := by
  simpa using h

/-- headDD of an appended list with a non-digit/dot head on both sides. -/
theorem headDD_append (b rest : List Char) (hb : headDD b = false)
    (hr : headDD rest = false) : headDD (b ++ rest) = false := by
  cases b with
  | nil => simpa
  | cons x xs => simpa [headDD] using hb

/-- C3 (amended): on a line that carries Z tokens, _update_z_value replaces
EVERY Z token's value (re.sub with no count replaces all non-overlapping
matches), each with the new value formatted to exactly 3 decimal digits,
altering no other character of the line; the original claim's
first-token-only behaviour does not hold.  The line is presented as an
explicit decomposition with two tokens. -/
theorem C3_update_z_replaces_all (z : ℝ) (a n b m c : List Char)
    (ha : 'Z' ∉ a) (hbz : 'Z' ∉ b) (hcz : 'Z' ∉ c)
    (hn : n ≠ []) (hm : m ≠ [])
    (hnd : ∀ ch ∈ n, isDigitDot ch = true) (hmd : ∀ ch ∈ m, isDigitDot ch = true)
    (hbh : headDD b = false) (hch : headDD c = false) :
    update_z_value (String.mk (a ++ 'Z' :: (n ++ (b ++ 'Z' :: (m ++ c))))) z =
      String.mk (a ++ ('Z' :: (formatFixed3 z).data) ++ b ++
        ('Z' :: (formatFixed3 z).data) ++ c) := by
  have hmem : 'Z' ∈ a ++ 'Z' :: (n ++ (b ++ 'Z' :: (m ++ c))) :=
    List.mem_append_right _ (List.mem_cons_self _ _)
  unfold update_z_value
  rw [if_pos (contains_of_mem _ _ hmem)]
  apply congrArg String.mk
  unfold subZ
  rw [subZAux_noZ _ a _ ha]
  have hZhead : headDD ('Z' :: (m ++ c)) = false := by
    simp [headDD, isDigitDot]
  rw [subZAux_tok _ n _ hn hnd (headDD_append b _ hbh hZhead)]
  rw [subZAux_noZ _ b _ hbz]
  rw [subZAux_tok _ m _ hm hmd hch]
  rw [subZAux_id _ c (hasZTok_eq_false c hcz)]
  simp [List.append_assoc]

/-- Concrete evaluation of the rewriter on a two-token line (shared by the
witness-style facts below). -/
theorem updateZ_two_tok_eval :
    update_z_value "G1 Z1.0 Z2.0\n" (0.15 : ℝ) = "G1 Z0.150 Z0.150\n" := by
  have hf : formatFixed3 (0.15 : ℝ) = "0.150" := by
    rw [formatFixed3_of (0.15 : ℝ) 150 (by norm_num)]
    decide
  simp only [update_z_value, hf]
  decide

/-- Witness for C3: the two-token line G1 Z1.0 Z2.0 with value 0.15. -/
theorem C3_update_z_replaces_all_witness :
    update_z_value "G1 Z1.0 Z2.0\n" (0.15 : ℝ) = "G1 Z0.150 Z0.150\n" := by
  have hf : formatFixed3 (0.15 : ℝ) = "0.150" := by
    rw [formatFixed3_of (0.15 : ℝ) 150 (by norm_num)]
    decide
  have h := C3_update_z_replaces_all (0.15 : ℝ) "G1 ".data "1.0".data " ".data
    "2.0".data "\n".data (by decide) (by decide) (by decide) (by decide) (by decide)
    (by decide) (by decide) (by decide) (by decide)
  rw [hf] at h
  have hin : ("G1 Z1.0 Z2.0\n" : String) =
      String.mk ("G1 ".data ++ 'Z' :: ("1.0".data ++ (" ".data ++ 'Z' ::
        ("2.0".data ++ "\n".data)))) := by decide
  have hout : String.mk ("G1 ".data ++ ('Z' :: "0.150".data) ++ " ".data ++
      ('Z' :: "0.150".data) ++ "\n".data) = ("G1 Z0.150 Z0.150\n" : String) := by decide
  rw [hin, h, hout]

/-- Counterexample for C3 as stated: on G1 Z1.0 Z2.0 the rewriter does not
leave the second Z token untouched, so the output differs from the
first-match-only replacement the claim describes. -/
theorem C3_counterexample :
    update_z_value "G1 Z1.0 Z2.0\n" (0.15 : ℝ) ≠
      String.mk (subZFirst ('Z' :: (formatFixed3 (0.15 : ℝ)).data)
        "G1 Z1.0 Z2.0\n".data) := by
  have hf : formatFixed3 (0.15 : ℝ) = "0.150" := by
    rw [formatFixed3_of (0.15 : ℝ) 150 (by norm_num)]
    decide
  rw [updateZ_two_tok_eval, hf]
  decide

/-- C4 (amended): the trim-and-append behaviour happens exactly when the
line contains no character Z at all (the source tests the substring "Z", not
a Z token); a line that contains a Z without a numeric suffix takes the
substitution branch, where the regex finds no match, and is returned
unchanged rather than having a token appended. -/
theorem C4_append_z (line : String) (z : ℝ) :
    (line.data.contains 'Z' = false →
      update_z_value line z =
        String.mk (rstrip line.data ++ (' ' :: 'Z' :: (formatFixed3 z).data) ++ ['\n'])) ∧
    (line.data.contains 'Z' = true → hasZTok line.data = false →
      update_z_value line z = line) := by
  constructor
  · intro h
    unfold update_z_value
    rw [if_neg (by rw [h]; exact Bool.false_ne_true)]
  · intro h1 h2
    unfold update_z_value
    rw [if_pos h1]
    unfold subZ
    rw [subZAux_id _ _ h2]

/-- Witness for C4: a Z-free line gets the token appended; a line with a
Z only inside a comment word is returned unchanged. -/
theorem C4_append_z_witness :
    update_z_value "G1 X1\n" (0.15 : ℝ) = "G1 X1 Z0.150\n" ∧
      update_z_value "G1 X1 ; Zoom\n" (0.15 : ℝ) = "G1 X1 ; Zoom\n" := by
  have hf : formatFixed3 (0.15 : ℝ) = "0.150" := by
    rw [formatFixed3_of (0.15 : ℝ) 150 (by norm_num)]
    decide
  constructor
  · have h := (C4_append_z "G1 X1\n" (0.15 : ℝ)).1 (by decide)
    rw [h, hf]
    decide
  · exact (C4_append_z "G1 X1 ; Zoom\n" (0.15 : ℝ)).2 (by decide) (by decide)

/-- Counterexample for C4 as stated: the line G1 X1 ; Zoom contains no Z
token, yet the rewriter performs no append (the substring test "Z" sends it
into the substitution branch, which finds nothing to replace), so its output
differs from the trim-and-append result that the claim requires. -/
theorem C4_counterexample :
    update_z_value "G1 X1 ; Zoom\n" (0.15 : ℝ) = "G1 X1 ; Zoom\n" ∧
      ("G1 X1 ; Zoom\n" : String) ≠
        String.mk (rstrip "G1 X1 ; Zoom\n".data ++
          (' ' :: 'Z' :: (formatFixed3 (0.15 : ℝ)).data) ++ ['\n']) := by
  have hf : formatFixed3 (0.15 : ℝ) = "0.150" := by
    rw [formatFixed3_of (0.15 : ℝ) 150 (by norm_num)]
    decide
  constructor
  · unfold update_z_value
    rw [if_pos (by decide)]
    unfold subZ
    rw [subZAux_id _ _ (by decide)]
  · rw [hf]
    decide

/-- Rewriter evaluation on the perimeter line G1 Z1.0 at target value 1.1
(shared between the driver-level facts below). -/
theorem updateZ_perimeter_eval (x : ℝ) (hx : x = 1.1) :
    update_z_value "G1 Z1.0\n" x = "G1 Z1.100\n" := by
  subst hx
  have hf : formatFixed3 (1.1 : ℝ) = "1.100" := by
    rw [formatFixed3_of (1.1 : ℝ) 1100 (by norm_num)]
    decide
  simp only [update_z_value, hf]
  decide

/-- C2: inside the infill branch, a line whose coordinate mapping is
non-empty but carries no X (here: only a Z coordinate) makes the code fail
(coords["X"] raises KeyError, modelled by none) instead of treating the
missing axis as 0; the whole pass over a stream containing such an infill
line aborts. -/
theorem C2_infill_keyerror :
    modify_infill defaultConfig 0 (0.1 : ℝ) "G1 Z0.5\n" = none ∧
      process_gcode defaultConfig
        [";TYPE:Internal infill\n", "G1 Z0.5\n", ";LAYER:1\n"] = none := by
  have hp2 : parse_coords "G1 Z0.5\n" =
      some { x? := none, y? := none, z? := some (mkRat 1 2) } := by decide
  have hp1 : parse_coords ";TYPE:Internal infill\n" = some Coords.empty := by decide
  have m1 : is_layer_change ";TYPE:Internal infill\n" = false := by decide
  have m2 : is_layer_change "G1 Z0.5\n" = false := by decide
  have m3 : is_layer_change ";LAYER:1\n" = true := by decide
  have d1 : detect_feature ";TYPE:Internal infill\n" PrintFeature.EXTERNAL_PERIMETER =
      PrintFeature.INFILL := by decide
  have d2 : detect_feature "G1 Z0.5\n" PrintFeature.INFILL = PrintFeature.INFILL := by
    decide
  constructor
  · simp [modify_infill, hp2, Coords.isEmpty]
  · simp [process_gcode, runFinal, runLines, initState, m1, m2, m3, d1, d2,
      process_layer, processLayerLines, process_line, modify_infill, hp1, hp2,
      Coords.empty, Coords.isEmpty]

/-- C8 (amended): no validation is performed at construction time.  The
source __init__ only assigns the default values (which do satisfy the
spec's validity constraints); there is no rejection path, and a
configuration that violates the transition_length < wavelength / 2
constraint is accepted and has lines processed under it.  The universal
success statement is restricted to layer_group_size at least 1, the domain
on which the embedding is faithful: a group size of 0 makes Python raise
ZeroDivisionError at the first flush (still not a construction-time
rejection). -/
theorem C8_no_construction_validation :
    ConfigValid defaultConfig ∧
      ∀ cfg : Config, 1 ≤ cfg.layer_group_size →
        (process_gcode cfg [";TYPE:Internal perimeter\n", "G1 Z1.0\n"]).isSome = true := by
  constructor
  · refine ⟨?_, ?_, ?_, ?_, ?_⟩ <;> norm_num [defaultConfig]
  · intro cfg _hg
    have m1 : is_layer_change ";TYPE:Internal perimeter\n" = false := by decide
    have m2 : is_layer_change "G1 Z1.0\n" = false := by decide
    have d1 : detect_feature ";TYPE:Internal perimeter\n" PrintFeature.EXTERNAL_PERIMETER =
        PrintFeature.INTERNAL_PERIMETER := by decide
    have d2 : detect_feature "G1 Z1.0\n" PrintFeature.INTERNAL_PERIMETER =
        PrintFeature.INTERNAL_PERIMETER := by decide
    have hp1 : parse_coords ";TYPE:Internal perimeter\n" = some Coords.empty := by decide
    have hp2 : parse_coords "G1 Z1.0\n" =
        some { x? := none, y? := none, z? := some 1 } := by decide
    simp [process_gcode, runFinal, runLines, finalize, initState, m1, m2, d1, d2,
      process_layer, processLayerLines, process_line, modify_internal_perimeter,
      hp1, hp2, Coords.empty, Coords.isEmpty]

/-- Witness for C8 at the default configuration (group size 2). -/
theorem C8_no_construction_validation_witness :
    (1 ≤ defaultConfig.layer_group_size ∧ ConfigValid defaultConfig) ∧
      (process_gcode defaultConfig
        [";TYPE:Internal perimeter\n", "G1 Z1.0\n"]).isSome = true :=
  ⟨⟨by norm_num [defaultConfig], C8_no_construction_validation.1⟩,
    C8_no_construction_validation.2 defaultConfig (by norm_num [defaultConfig])⟩

/-- Counterexample for C8 as stated: a configuration with transition_length
well above wavelength / 2 is invalid by the spec's own predicate, yet
nothing rejects it and a line transformation is carried out under it (the
internal-perimeter line receives the bricklayer shift). -/
theorem C8_counterexample :
    ¬ ConfigValid badConfig ∧
      process_gcode badConfig [";TYPE:Internal perimeter\n", "G1 Z1.0\n"] =
        some [";TYPE:Internal perimeter\n", "G1 Z1.100\n"] := by
  constructor
  · intro h
    have h1 := h.1
    rw [show badConfig.transition_length = 3 from rfl,
      show badConfig.wavelength = 4 from rfl] at h1
    norm_num at h1
  · have m1 : is_layer_change ";TYPE:Internal perimeter\n" = false := by decide
    have m2 : is_layer_change "G1 Z1.0\n" = false := by decide
    have d1 : detect_feature ";TYPE:Internal perimeter\n" PrintFeature.EXTERNAL_PERIMETER =
        PrintFeature.INTERNAL_PERIMETER := by decide
    have d2 : detect_feature "G1 Z1.0\n" PrintFeature.INTERNAL_PERIMETER =
        PrintFeature.INTERNAL_PERIMETER := by decide
    have hp1 : parse_coords ";TYPE:Internal perimeter\n" = some Coords.empty := by decide
    have hp2 : parse_coords "G1 Z1.0\n" =
        some { x? := none, y? := none, z? := some 1 } := by decide
    simp [process_gcode, runFinal, runLines, finalize, initState, m1, m2, d1, d2,
      process_layer, processLayerLines, process_line, modify_internal_perimeter,
      hp1, hp2, Coords.empty, Coords.isEmpty, calculate_bricklayer_shift]
    apply updateZ_perimeter_eval
    rw [show badConfig.bricklayer_shift = 0.1 from rfl]
    norm_num

/-- Peel the first layer off a hit count. -/
theorem hitCount_succ (g k m : ℕ) :
    hitCount g k (m + 1) = (if k % g = 0 then 1 else 0) + hitCount g (k + 1) m := by
  unfold hitCount
  rw [List.range_succ_eq_map, List.countP_cons, List.countP_map]
  have he : ((fun i => decide ((k + i) % g = 0)) ∘ Nat.succ) =
      (fun i => decide ((k + 1 + i) % g = 0)) := by
    funext i
    have harg : k + Nat.succ i = k + 1 + i := by omega
    simp only [Function.comp_apply, harg]
  rw [he]
  simp only [Nat.add_zero, decide_eq_true_eq]
  split_ifs <;> omega

/-- Closed form of the hit count from layer 0: the multiples of g among
0..n are exactly n / g + 1 many. -/
theorem hitCount_from_zero (g n : ℕ) :
    hitCount g 0 (n + 1) = n / g + 1 := by
  induction n with
  | zero =>
    simp [hitCount, List.range_succ, List.countP_cons, Nat.zero_mod]
  | succ n ih =>
    have hstep : hitCount g 0 (n + 1 + 1) =
        hitCount g 0 (n + 1) + (if (n + 1) % g = 0 then 1 else 0) := by
      unfold hitCount
      rw [List.range_succ, List.countP_append]
      simp [List.countP_cons]
    rw [hstep, ih, Nat.succ_div]
    have hiff : (g ∣ n + 1) ↔ ((n + 1) % g = 0) := Nat.dvd_iff_mod_eq_zero
    rw [if_congr hiff rfl rfl]
    split_ifs <;> omega

/-- Closed form of the iterated accumulator update: the starting value plus
the shift times the number of flushed layers whose index is a multiple of
the group size. -/
theorem accumIter_eq (cfg : Config) : ∀ (m k : ℕ) (a : ℝ),
    accumIter cfg k a m =
      a + cfg.bricklayer_shift * hitCount cfg.layer_group_size k m := by
  intro m
  induction m with
  | zero =>
    intro k a
    simp [accumIter, hitCount]
  | succ m ih =>
    intro k a
    have hstep : accumIter cfg k a (m + 1) =
        accumIter cfg (k + 1) (calculate_bricklayer_shift cfg k a) m := rfl
    rw [hstep, ih, hitCount_succ]
    by_cases h : k % cfg.layer_group_size = 0
    · rw [if_pos h]
      unfold calculate_bricklayer_shift
      rw [if_pos h]
      push_cast
      ring
    · rw [if_neg h]
      unfold calculate_bricklayer_shift
      rw [if_neg h]
      push_cast
      ring

/-- C7: the accumulator update of _calculate_bricklayer_shift adds exactly
bricklayer_shift when current_layer mod layer_group_size = 0 and leaves the
value unchanged otherwise; over the sequence of processed layers the
accumulator is monotonically non-decreasing (for non-negative shift), and
the first increment happens at layer 0 (the very first flush already yields
bricklayer_shift).  The group size is assumed positive, as Python raises on
a modulus of 0. -/
theorem C7_bricklayer_accumulator (cfg : Config) (k n : ℕ) (a : ℝ)
    (_hg : 1 ≤ cfg.layer_group_size) (hb : 0 ≤ cfg.bricklayer_shift) :
    (k % cfg.layer_group_size = 0 →
      calculate_bricklayer_shift cfg k a = a + cfg.bricklayer_shift) ∧
    (k % cfg.layer_group_size ≠ 0 → calculate_bricklayer_shift cfg k a = a) ∧
    accumIter cfg 0 0 n ≤ accumIter cfg 0 0 (n + 1) ∧
    accumIter cfg 0 0 1 = cfg.bricklayer_shift := by
  refine ⟨?_, ?_, ?_, ?_⟩
  · intro h
    unfold calculate_bricklayer_shift
    rw [if_pos h]
  · intro h
    unfold calculate_bricklayer_shift
    rw [if_neg h]
  · rw [accumIter_eq, accumIter_eq]
    have hmono : hitCount cfg.layer_group_size 0 n ≤
        hitCount cfg.layer_group_size 0 (n + 1) := by
      unfold hitCount
      rw [List.range_succ, List.countP_append]
      exact Nat.le_add_right _ _
    have hcast : (hitCount cfg.layer_group_size 0 n : ℝ) ≤
        (hitCount cfg.layer_group_size 0 (n + 1) : ℝ) := by exact_mod_cast hmono
    have := mul_le_mul_of_nonneg_left hcast hb
    linarith
  · have h1 : accumIter cfg 0 0 1 = calculate_bricklayer_shift cfg 0 0 := rfl
    rw [h1]
    unfold calculate_bricklayer_shift
    rw [if_pos (Nat.zero_mod _)]
    ring

/-- Witness for C7 at the default configuration, layer 2, accumulator 0.3,
five flushed layers. -/
theorem C7_bricklayer_accumulator_witness :
    (1 ≤ defaultConfig.layer_group_size ∧ 0 ≤ defaultConfig.bricklayer_shift) ∧
      ((2 % defaultConfig.layer_group_size = 0 →
        calculate_bricklayer_shift defaultConfig 2 (0.3 : ℝ) =
          0.3 + defaultConfig.bricklayer_shift) ∧
      (2 % defaultConfig.layer_group_size ≠ 0 →
        calculate_bricklayer_shift defaultConfig 2 (0.3 : ℝ) = 0.3) ∧
      accumIter defaultConfig 0 0 5 ≤ accumIter defaultConfig 0 0 (5 + 1) ∧
      accumIter defaultConfig 0 0 1 = defaultConfig.bricklayer_shift) :=
  ⟨⟨by norm_num [defaultConfig], by norm_num [defaultConfig]⟩,
    C7_bricklayer_accumulator defaultConfig 2 5 0.3 (by norm_num [defaultConfig])
      (by norm_num [defaultConfig])⟩

/-- Number of layer-boundary marker lines in a stream. -/
def countMarkers (input : List String) : ℕ :=
  (input.filter (fun l => is_layer_change l)).length

/-- State evolution of the driver loop: a successful run over an input
segment bumps current_layer by the number of markers seen, and drives
total_z_shift through one accumulator update per marker (each performed at
the layer index current at that flush). -/
theorem runLines_state (cfg : Config) : ∀ (input : List String) (st st' : DriverState),
    runLines cfg st input = some st' →
    st'.current_layer = st.current_layer + countMarkers input ∧
    st'.total_z_shift =
      accumIter cfg st.current_layer st.total_z_shift (countMarkers input) := by
  intro input
  induction input with
  | nil =>
    intro st st' h
    have hst : st = st' := Option.some.inj h
    subst hst
    simp [countMarkers, accumIter]
  | cons line rest ih =>
    intro st st' h
    by_cases hl : is_layer_change line = true
    · cases hq : processLayerLines cfg st.current_layer st.current_feature
          (calculate_bricklayer_shift cfg st.current_layer st.total_z_shift)
          st.layer_lines with
      | none =>
        rw [runLines, if_pos hl] at h
        simp only [process_layer, hq] at h
        exact absurd h (by simp)
      | some outs =>
        rw [runLines, if_pos hl] at h
        simp only [process_layer, hq] at h
        obtain ⟨h1, h2⟩ := ih _ _ h
        have hcm : countMarkers (line :: rest) = countMarkers rest + 1 := by
          simp [countMarkers, List.filter_cons, hl]
        refine ⟨?_, ?_⟩
        · rw [hcm]
          rw [h1]
          simp only []
          omega
        · rw [hcm]
          have hacc : accumIter cfg st.current_layer st.total_z_shift
              (countMarkers rest + 1) =
              accumIter cfg (st.current_layer + 1)
                (calculate_bricklayer_shift cfg st.current_layer st.total_z_shift)
                (countMarkers rest) := rfl
          rw [hacc]
          exact h2
    · rw [runLines, if_neg hl] at h
      obtain ⟨h1, h2⟩ := ih _ _ h
      have hcm : countMarkers (line :: rest) = countMarkers rest := by
        simp [countMarkers, List.filter_cons, hl]
      rw [hcm]
      exact ⟨h1, h2⟩

/-- C10: the accumulator update runs on every flush, empty layers included:
whenever the driver has consumed a prefix that ends with a marker line (the
flush triggered at current_layer = n, where n counts the markers before it),
the accumulator equals bricklayer_shift * (n / layer_group_size + 1),
independent of the content of the layers.  The group size is assumed
positive, as Python raises on a modulus of 0. -/
theorem C10_accumulator_after_flush (cfg : Config) (pre : List String) (m : String)
    (st' : DriverState) (_hg : 1 ≤ cfg.layer_group_size)
    (hm : is_layer_change m = true)
    (hrun : runLines cfg initState (pre ++ [m]) = some st') :
    st'.total_z_shift =
      cfg.bricklayer_shift * ((countMarkers pre / cfg.layer_group_size : ℕ) + 1) := by
  obtain ⟨_, h2⟩ := runLines_state cfg (pre ++ [m]) initState st' hrun
  have hcm : countMarkers (pre ++ [m]) = countMarkers pre + 1 := by
    simp [countMarkers, List.filter_append, List.filter_cons, hm]
  rw [hcm] at h2
  rw [show initState.current_layer = 0 from rfl,
    show initState.total_z_shift = (0 : ℝ) from rfl] at h2
  rw [h2, accumIter_eq, hitCount_from_zero]
  push_cast
  ring

/-- Witness for C10: a single marker line as the whole stream (an empty
layer 0 is flushed). -/
theorem C10_accumulator_after_flush_witness :
    1 ≤ defaultConfig.layer_group_size ∧ is_layer_change ";LAYER:0\n" = true ∧
      DriverState.total_z_shift
          { layer_lines := []
            current_feature := PrintFeature.EXTERNAL_PERIMETER
            current_layer := 1
            total_z_shift := calculate_bricklayer_shift defaultConfig 0 0
            output := [] } =
        defaultConfig.bricklayer_shift *
          ((countMarkers [] / defaultConfig.layer_group_size : ℕ) + 1) := by
  refine ⟨by norm_num [defaultConfig], by decide, ?_⟩
  apply C10_accumulator_after_flush defaultConfig [] ";LAYER:0\n" _
    (by norm_num [defaultConfig]) (by decide)
  simp [runLines, initState, process_layer, processLayerLines,
    (by decide : is_layer_change ";LAYER:0\n" = true)]

/-- attachBuf with an empty buffer changes nothing. -/
theorem attachBuf_nil : ∀ p : List (List String) × List String, attachBuf [] p = p := by
  intro p
  rcases p with ⟨ls, r⟩
  cases ls <;> simp [attachBuf]

/-- Folding the classifier over one more buffered line. -/
theorem foldFeature_append (f : PrintFeature) (buf : List String) (line : String) :
    foldFeature f (buf ++ [line]) = detect_feature line (foldFeature f buf) := by
  simp [foldFeature, List.foldl_append]

/-- The loop-plus-final-flush of the driver equals the buffer-explicit
recursion refFrom, up to the already-written output prefix. -/
theorem runFinal_eq_refFrom (cfg : Config) : ∀ (input : List String) (st : DriverState),
    runFinal cfg st input =
      Option.map (fun out => st.output ++ out)
        (refFrom cfg st.layer_lines st.current_feature st.current_layer
          st.total_z_shift input) := by
  intro input
  induction input with
  | nil =>
    intro st
    show finalize cfg st = _
    by_cases hb : st.layer_lines.isEmpty = true
    · simp [finalize, refFrom, hb]
    · cases hq : processLayerLines cfg st.current_layer st.current_feature
          (calculate_bricklayer_shift cfg st.current_layer st.total_z_shift)
          st.layer_lines with
      | none => simp [finalize, refFrom, hb, process_layer, hq]
      | some outs => simp [finalize, refFrom, hb, process_layer, hq]
  | cons line rest ih =>
    intro st
    by_cases hl : is_layer_change line = true
    · cases hq : processLayerLines cfg st.current_layer st.current_feature
          (calculate_bricklayer_shift cfg st.current_layer st.total_z_shift)
          st.layer_lines with
      | none =>
        have hlhs : runFinal cfg st (line :: rest) = none := by
          unfold runFinal
          rw [runLines, if_pos hl]
          simp [process_layer, hq]
        rw [hlhs]
        simp [refFrom, hl, hq]
      | some outs =>
        have hlhs : runFinal cfg st (line :: rest) =
            runFinal cfg
              { layer_lines := []
                current_feature := st.current_feature
                current_layer := st.current_layer + 1
                total_z_shift :=
                  calculate_bricklayer_shift cfg st.current_layer st.total_z_shift
                output := st.output ++ outs } rest := by
          unfold runFinal
          rw [runLines, if_pos hl]
          simp [process_layer, hq]
        rw [hlhs, ih]
        dsimp only
        simp only [refFrom, hl, if_true, hq]
        cases hr : refFrom cfg [] st.current_feature (st.current_layer + 1)
            (calculate_bricklayer_shift cfg st.current_layer st.total_z_shift) rest with
        | none => simp [hr]
        | some more => simp [hr, List.append_assoc]
    · have hlhs : runFinal cfg st (line :: rest) =
          runFinal cfg
            { st with
              current_feature := detect_feature line st.current_feature
              layer_lines := st.layer_lines ++ [line] } rest := by
        unfold runFinal
        rw [runLines, if_neg hl]
      rw [hlhs, ih]
      dsimp only
      simp [refFrom, hl]

/-- The buffer-explicit recursion equals the layered replay on the cut
stream, with the buffer attached to the first layer and the feature obtained
by folding the classifier over the buffer. -/
theorem refFrom_eq_refLayers (cfg : Config) : ∀ (input buf : List String)
    (f0 : PrintFeature) (k : ℕ) (a : ℝ),
    refFrom cfg buf (foldFeature f0 buf) k a input =
      refLayers cfg f0 k a (layersArg (attachBuf buf (splitLayers input))) := by
  intro input
  induction input with
  | nil =>
    intro buf f0 k a
    by_cases hb : buf.isEmpty = true
    · have hbe : buf = [] := List.isEmpty_iff.mp hb
      subst hbe
      simp [refFrom, splitLayers, attachBuf, layersArg, refLayers, foldFeature]
    · cases hq : processLayerLines cfg k (foldFeature f0 buf)
          (calculate_bricklayer_shift cfg k a) buf with
      | none => simp [refFrom, splitLayers, attachBuf, layersArg, refLayers, hb, hq]
      | some outs => simp [refFrom, splitLayers, attachBuf, layersArg, refLayers, hb, hq]
  | cons line rest ih =>
    intro buf f0 k a
    by_cases hl : is_layer_change line = true
    · rcases hsp : splitLayers rest with ⟨ls, r⟩
      have hsplit : splitLayers (line :: rest) = ([] :: ls, r) := by
        simp [splitLayers, hl, hsp]
      have hIH := ih [] (foldFeature f0 buf) (k + 1)
        (calculate_bricklayer_shift cfg k a)
      rw [attachBuf_nil, hsp] at hIH
      simp only [foldFeature, List.foldl_nil] at hIH
      rw [hsplit]
      have hab : attachBuf buf ([] :: ls, r) = (buf :: ls, r) := by
        simp [attachBuf]
      rw [hab]
      have hla : layersArg (buf :: ls, r) = buf :: layersArg (ls, r) := by
        simp [layersArg]
      rw [hla]
      simp only [refFrom, hl, if_true, refLayers, foldFeature]
      cases hq : processLayerLines cfg k (List.foldl (fun fe line => detect_feature line fe) f0 buf)
          (calculate_bricklayer_shift cfg k a) buf with
      | none => simp [hq]
      | some outs =>
        simp only [hq]
        rw [hIH]
    · rcases hsp : splitLayers rest with ⟨ls, r⟩
      have hIH := ih (buf ++ [line]) f0 k a
      rw [foldFeature_append, hsp] at hIH
      have hstep : refFrom cfg buf (foldFeature f0 buf) k a (line :: rest) =
          refFrom cfg (buf ++ [line]) (detect_feature line (foldFeature f0 buf)) k a
            rest := by
        simp [refFrom, hl]
      rw [hstep, hIH]
      congr 1
      cases ls with
      | nil =>
        have hsplit : splitLayers (line :: rest) = ([], line :: r) := by
          simp [splitLayers, hl, hsp]
        rw [hsplit]
        simp [attachBuf, layersArg, List.append_assoc]
      | cons L ls' =>
        have hsplit : splitLayers (line :: rest) = ((line :: L) :: ls', r) := by
          simp [splitLayers, hl, hsp]
        rw [hsplit]
        simp [attachBuf, layersArg, List.append_assoc]

/-- The full pass is the layered reference semantics: each layer is
transformed with its flush-time feature, layer index and accumulator. -/
theorem process_gcode_eq_layeredRef (cfg : Config) (input : List String) :
    process_gcode cfg input = layeredRef cfg input := by
  show runFinal cfg initState input = _
  rw [runFinal_eq_refFrom]
  have h0 : initState.layer_lines = [] := rfl
  have h1 : initState.current_feature = PrintFeature.EXTERNAL_PERIMETER := rfl
  have h2 : initState.current_layer = 0 := rfl
  have h3 : initState.total_z_shift = (0 : ℝ) := rfl
  have h4 : initState.output = ([] : List String) := rfl
  rw [h0, h1, h2, h3, h4]
  have h5 : PrintFeature.EXTERNAL_PERIMETER =
      foldFeature PrintFeature.EXTERNAL_PERIMETER [] := rfl
  rw [h5, refFrom_eq_refLayers, attachBuf_nil]
  have h6 : ∀ o : Option (List String),
      Option.map (fun out => ([] : List String) ++ out) o = o := by
    intro o
    cases o <;> simp
  rw [h6]
  rfl

/-- C1 (amended): when a layer is flushed, every buffered line of the layer
is transformed according to the SINGLE feature that is current at flush time
(the sticky feature after the last line of the layer was read), not
according to each line's own classified feature: the whole pass equals the
layered reference semantics in which one feature, obtained by folding the
classifier over the entire layer, is applied to all of its lines. -/
theorem C1_flush_time_feature (cfg : Config) (input : List String) :
    process_gcode cfg input = layeredRef cfg input :=
  process_gcode_eq_layeredRef cfg input

/-- Witness for C1 at a concrete one-line stream. -/
theorem C1_flush_time_feature_witness :
    process_gcode defaultConfig ["G1 X1\n"] = layeredRef defaultConfig ["G1 X1\n"] :=
  C1_flush_time_feature defaultConfig ["G1 X1\n"]

/-- Counterexample for C1 as stated: in a layer whose lines belong to
different features (an internal-perimeter section followed by an
external-perimeter section), the code transforms every line with the
flush-time feature (external: everything passes through unchanged), whereas
the per-line transformation the claim describes would give the
internal-perimeter line its bricklayer-shifted Z. -/
theorem C1_counterexample :
    process_gcode defaultConfig
        [";TYPE:Internal perimeter\n", "G1 Z1.0\n", ";TYPE:External perimeter\n"] =
      some [";TYPE:Internal perimeter\n", "G1 Z1.0\n", ";TYPE:External perimeter\n"] ∧
    perLineRun defaultConfig [] PrintFeature.EXTERNAL_PERIMETER 0 0
        [";TYPE:Internal perimeter\n", "G1 Z1.0\n", ";TYPE:External perimeter\n"] =
      some [";TYPE:Internal perimeter\n", "G1 Z1.100\n", ";TYPE:External perimeter\n"] ∧
    process_gcode defaultConfig
        [";TYPE:Internal perimeter\n", "G1 Z1.0\n", ";TYPE:External perimeter\n"] ≠
      perLineRun defaultConfig [] PrintFeature.EXTERNAL_PERIMETER 0 0
        [";TYPE:Internal perimeter\n", "G1 Z1.0\n", ";TYPE:External perimeter\n"] := by
  have m1 : is_layer_change ";TYPE:Internal perimeter\n" = false := by decide
  have m2 : is_layer_change "G1 Z1.0\n" = false := by decide
  have m3 : is_layer_change ";TYPE:External perimeter\n" = false := by decide
  have d1 : detect_feature ";TYPE:Internal perimeter\n" PrintFeature.EXTERNAL_PERIMETER =
      PrintFeature.INTERNAL_PERIMETER := by decide
  have d2 : detect_feature "G1 Z1.0\n" PrintFeature.INTERNAL_PERIMETER =
      PrintFeature.INTERNAL_PERIMETER := by decide
  have d3 : detect_feature ";TYPE:External perimeter\n" PrintFeature.INTERNAL_PERIMETER =
      PrintFeature.EXTERNAL_PERIMETER := by decide
  have hp1 : parse_coords ";TYPE:Internal perimeter\n" = some Coords.empty := by decide
  have hp2 : parse_coords "G1 Z1.0\n" =
      some { x? := none, y? := none, z? := some 1 } := by decide
  have hp3 : parse_coords ";TYPE:External perimeter\n" = some Coords.empty := by decide
  have hA : process_gcode defaultConfig
      [";TYPE:Internal perimeter\n", "G1 Z1.0\n", ";TYPE:External perimeter\n"] =
      some [";TYPE:Internal perimeter\n", "G1 Z1.0\n", ";TYPE:External perimeter\n"] := by
    simp [process_gcode, runFinal, runLines, finalize, initState, m1, m2, m3,
      d1, d2, d3, process_layer, processLayerLines, process_line]
  have hB : perLineRun defaultConfig [] PrintFeature.EXTERNAL_PERIMETER 0 0
      [";TYPE:Internal perimeter\n", "G1 Z1.0\n", ";TYPE:External perimeter\n"] =
      some [";TYPE:Internal perimeter\n", "G1 Z1.100\n", ";TYPE:External perimeter\n"] := by
    simp [perLineRun, perLineFlush, m1, m2, m3, d1, d2, d3, process_line,
      modify_internal_perimeter, hp1, hp2, hp3, Coords.empty, Coords.isEmpty,
      calculate_bricklayer_shift]
    apply updateZ_perimeter_eval
    norm_num [defaultConfig]
  refine ⟨hA, hB, ?_⟩
  rw [hA, hB]
  intro h
  have := Option.some.inj h
  simp at this

/-- Forall₂ respects appending corresponding lists. -/
theorem forall₂_append {α β : Type} {R : α → β → Prop} :
    ∀ {a c : List α} {b d : List β}, List.Forall₂ R a b → List.Forall₂ R c d →
    List.Forall₂ R (a ++ c) (b ++ d) := by
  intro a c b d h1 h2
  induction h1 with
  | nil => simpa
  | cons hab h ihh =>
    simp only [List.cons_append]
    exact List.Forall₂.cons hab ihh

/-- Pointwise reading of a successful layer flush: the outputs correspond
one-to-one, in order, to the buffered lines. -/
theorem processLayerLines_forall₂ (cfg : Config) (k : ℕ) (f : PrintFeature) (b : ℝ) :
    ∀ (L outs : List String), processLayerLines cfg k f b L = some outs →
    List.Forall₂ (fun src out => process_line cfg k f b src = some out) L outs := by
  intro L
  induction L with
  | nil =>
    intro outs h
    have he : ([] : List String) = outs := Option.some.inj h
    subst he
    exact List.Forall₂.nil
  | cons l rest ih =>
    intro outs h
    cases hq : process_line cfg k f b l with
    | none =>
      simp only [processLayerLines, hq] at h
      exact Option.noConfusion h
    | some o =>
      cases hr : processLayerLines cfg k f b rest with
      | none =>
        simp only [processLayerLines, hq, hr] at h
        exact Option.noConfusion h
      | some outs' =>
        simp only [processLayerLines, hq, hr] at h
        have he : o :: outs' = outs := by simpa using h
        subst he
        exact List.Forall₂.cons hq (ih outs' hr)

/-- Pointwise reading of the layered replay: each output line is the
transform of the corresponding line of the concatenated layers, in order. -/
theorem refLayers_forall₂ (cfg : Config) : ∀ (ls : List (List String))
    (f : PrintFeature) (k : ℕ) (a : ℝ) (out : List String),
    refLayers cfg f k a ls = some out →
    List.Forall₂ (fun src o => ∃ kk ff bb, process_line cfg kk ff bb src = some o)
      ls.flatten out := by
  intro ls
  induction ls with
  | nil =>
    intro f k a out h
    have he : ([] : List String) = out := Option.some.inj h
    subst he
    simp
  | cons L ls' ih =>
    intro f k a out h
    cases hq : processLayerLines cfg k (foldFeature f L)
        (calculate_bricklayer_shift cfg k a) L with
    | none =>
      simp only [refLayers, hq] at h
      exact Option.noConfusion h
    | some outs =>
      cases hr : refLayers cfg (foldFeature f L) (k + 1)
          (calculate_bricklayer_shift cfg k a) ls' with
      | none =>
        simp only [refLayers, hq, hr] at h
        exact Option.noConfusion h
      | some more =>
        simp only [refLayers, hq, hr] at h
        have he : outs ++ more = out := by simpa using h
        subst he
        have h1 := processLayerLines_forall₂ cfg k (foldFeature f L)
          (calculate_bricklayer_shift cfg k a) L outs hq
        have h1' : List.Forall₂
            (fun src o => ∃ kk ff bb, process_line cfg kk ff bb src = some o) L outs :=
          List.Forall₂.imp (fun s o hso => ⟨k, foldFeature f L,
            calculate_bricklayer_shift cfg k a, hso⟩) h1
        have h2 := ih (foldFeature f L) (k + 1) (calculate_bricklayer_shift cfg k a)
          more hr
        simpa using forall₂_append h1' h2

/-- The flushed layers are, in order, exactly the non-marker lines of the
stream. -/
theorem join_layersArg : ∀ input : List String,
    (layersArg (splitLayers input)).flatten =
      input.filter (fun l => !(is_layer_change l)) := by
  intro input
  induction input with
  | nil => rfl
  | cons line rest ih =>
    rcases hsp : splitLayers rest with ⟨ls, r⟩
    rw [hsp] at ih
    by_cases hl : is_layer_change line = true
    · have hsplit : splitLayers (line :: rest) = ([] :: ls, r) := by
        simp [splitLayers, hl, hsp]
      rw [hsplit]
      have hla : layersArg ([] :: ls, r) = [] :: layersArg (ls, r) := by
        simp [layersArg]
      rw [hla]
      simp [List.filter_cons, hl, ih]
    · cases ls with
      | nil =>
        have hsplit : splitLayers (line :: rest) = ([], line :: r) := by
          simp [splitLayers, hl, hsp]
        rw [hsplit]
        have hr : r = rest.filter (fun l => !(is_layer_change l)) := by
          rcases r with _ | ⟨x, xs⟩
          · simpa [layersArg] using ih
          · simpa [layersArg] using ih
        simp [layersArg, List.filter_cons, hl, hr]
      | cons L ls' =>
        have hsplit : splitLayers (line :: rest) = ((line :: L) :: ls', r) := by
          simp [splitLayers, hl, hsp]
        rw [hsplit]
        have ih' : L ++ (layersArg (ls', r)).flatten =
            rest.filter (fun l => !(is_layer_change l)) := by
          simpa [layersArg] using ih
        have hla : layersArg ((line :: L) :: ls', r) =
            (line :: L) :: layersArg (ls', r) := by
          simp [layersArg]
        rw [hla]
        simp only [List.flatten_cons, List.cons_append]
        rw [ih']
        simp [List.filter_cons, hl]

/-- C9: on a successful run, every layer-boundary marker line is consumed by
the driver (it bumps current_layer: the final layer counter equals the
number of markers) and never written to the output, while the output lines
correspond one-to-one, in original order, to exactly the non-marker input
lines (each transformed by _process_line under some flush parameters). -/
theorem C9_markers_consumed (cfg : Config) (input out : List String)
    (st' : DriverState) (hout : process_gcode cfg input = some out)
    (hst : runLines cfg initState input = some st') :
    List.Forall₂ (fun src o => ∃ k f b, process_line cfg k f b src = some o)
      (input.filter (fun l => !(is_layer_change l))) out ∧
    st'.current_layer = countMarkers input := by
  constructor
  · rw [process_gcode_eq_layeredRef] at hout
    unfold layeredRef at hout
    have h := refLayers_forall₂ cfg (layersArg (splitLayers input))
      PrintFeature.EXTERNAL_PERIMETER 0 0 out hout
    rw [join_layersArg] at h
    exact h
  · have h := (runLines_state cfg input initState st' hst).1
    rw [show initState.current_layer = 0 from rfl] at h
    simpa using h

/-- Witness for C9 at a one-line stream with no markers. -/
theorem C9_markers_consumed_witness :
    List.Forall₂ (fun src o => ∃ k f b, process_line defaultConfig k f b src = some o)
      (["G1 X1\n"].filter (fun l => !(is_layer_change l))) ["G1 X1\n"] ∧
    DriverState.current_layer
        { layer_lines := ["G1 X1\n"]
          current_feature := PrintFeature.EXTERNAL_PERIMETER
          current_layer := 0
          total_z_shift := 0
          output := [] } =
      countMarkers ["G1 X1\n"] := by
  have m : is_layer_change "G1 X1\n" = false := by decide
  have d : detect_feature "G1 X1\n" PrintFeature.EXTERNAL_PERIMETER =
      PrintFeature.EXTERNAL_PERIMETER := by decide
  apply C9_markers_consumed defaultConfig ["G1 X1\n"] ["G1 X1\n"]
  · simp [process_gcode, runFinal, runLines, finalize, initState, m, d,
      process_layer, processLayerLines, process_line]
  · simp [runLines, initState, m, d]

end UZM
